import Mathlib

/-!
Verification of the trading-bot core of this repository
(`strategy/indicators.py`, `strategy/signals.py`, `strategy/risk_manager.py`,
`strategy/kill_switch.py`, `main.py`).

Numbers are modelled by rationals; a NumPy NaN ("undefined" indicator value)
is modelled by the `none` case of `Option ℚ`, so indicator arrays become
`List (Option ℚ)`.  Python dictionaries become association lists.  The
MetaTrader collaborator calls (`mt5.account_info`, `mt5.positions_get`,
`mt5.symbol_info_tick`, `mt5.order_send`) become explicit parameters of the
embedded functions.  All embedded functions are total Lean definitions, so
"never raises" facts are expressed through totality plus the returned value.
-/

namespace Trading

/-! ## indicators.py -/

/-- The tail of `calculate_ema`'s loop: given the previous EMA value, apply
`ema[i] = (data[i] - ema[i-1]) * multiplier + ema[i-1]` along the rest of the
data (source: `indicators.py`, lines 50-52). -/
def emaFrom (mult : ℚ) (prev : ℚ) : List ℚ → List ℚ
  | [] => []
  | x :: xs =>
    let v := (x - prev) * mult + prev
    v :: emaFrom mult v xs

/-- `calculate_ema(data, period)` (source: `indicators.py`, lines 17-54),
for `period ≥ 1`.  Returns an array of the input length; the first
`period - 1` entries are undefined, entry `period - 1` is the simple mean of
the first `period` data points, and later entries follow the recursive EMA
formula with multiplier `2 / (period + 1)`.  If the data is shorter than
`period` the whole output is undefined. -/
def calculate_ema (data : List ℚ) (period : ℕ) : List (Option ℚ) :=
  if data.length < period then
    List.replicate data.length none
  else
    let seed : ℚ := (data.take period).sum / (period : ℚ)
    let mult : ℚ := 2 / ((period : ℚ) + 1)
    List.replicate (period - 1) none ++ [some seed]
      ++ (emaFrom mult seed (data.drop period)).map some

/-- One Wilder-smoothing step of `calculate_rsi`'s loop (source:
`indicators.py`, lines 103-111): smooth the average gain/loss with the next
delta and emit the RSI value. -/
def wilderRsi (period : ℕ) (avgGain avgLoss : ℚ) : List ℚ → List ℚ
  | [] => []
  | d :: ds =>
    let g := if d > 0 then d else 0
    let l := if d < 0 then -d else 0
    let ag := (avgGain * ((period : ℚ) - 1) + g) / (period : ℚ)
    let al := (avgLoss * ((period : ℚ) - 1) + l) / (period : ℚ)
    let r := if al = 0 then 100 else 100 - 100 / (1 + ag / al)
    r :: wilderRsi period ag al ds

/-- `calculate_rsi(data, period)` (source: `indicators.py`, lines 57-113),
for `period ≥ 1`.  The first `period` entries are undefined; entry `period`
is seeded from simple means of the first `period` gains/losses, later
entries use Wilder smoothing.  Data shorter than `period + 1` yields an
all-undefined array of the input length. -/
def calculate_rsi (data : List ℚ) (period : ℕ) : List (Option ℚ) :=
  if data.length < period + 1 then
    List.replicate data.length none
  else
    let deltas := (data.zip data.tail).map (fun p => p.2 - p.1)
    let gains := deltas.map (fun d => if d > 0 then d else 0)
    let losses := deltas.map (fun d => if d < 0 then -d else 0)
    let avgGain := (gains.take period).sum / (period : ℚ)
    let avgLoss := (losses.take period).sum / (period : ℚ)
    let first := if avgLoss = 0 then 100 else 100 - 100 / (1 + avgGain / avgLoss)
    List.replicate period none ++ [some first]
      ++ (wilderRsi period avgGain avgLoss (deltas.drop period)).map some

/-- True ranges from index 1 on (source: `indicators.py`, lines 157-161):
each bar contributes `max(high - low, |high - prevClose|, |low - prevClose|)`.
Bars are `(high, low, close)` triples; the second argument is the previous
bar's close. -/
def trRest : List (ℚ × ℚ × ℚ) → ℚ → List ℚ
  | [], _ => []
  | (h, l, c) :: rest, pc =>
    max (h - l) (max |h - pc| |l - pc|) :: trRest rest c

/-- The full true-range series (source: `indicators.py`, lines 154-161):
`TR[0] = high[0] - low[0]`, then `trRest`. -/
def trueRanges : List (ℚ × ℚ × ℚ) → List ℚ
  | [] => []
  | (h, l, c) :: rest => (h - l) :: trRest rest c

/-- One Wilder-smoothing step of `calculate_atr`'s loop (source:
`indicators.py`, lines 167-168): `atr[i] = (atr[i-1]*(period-1) + TR[i]) / period`. -/
def wilderAtr (period : ℕ) (prev : ℚ) : List ℚ → List ℚ
  | [] => []
  | t :: ts =>
    let v := (prev * ((period : ℚ) - 1) + t) / (period : ℚ)
    v :: wilderAtr period v ts

/-- `calculate_atr(high, low, close, period)` (source: `indicators.py`,
lines 116-170), for `period ≥ 1`.  The guard checks the length of `close`
(as in the source); `high`/`low` are consumed bar-by-bar through zipping.
The first `period` entries are undefined; entry `period` is the simple mean
of `TR[1..period]`; later entries use Wilder smoothing. -/
def calculate_atr (high low close : List ℚ) (period : ℕ) : List (Option ℚ) :=
  if close.length < period + 1 then
    List.replicate close.length none
  else
    let tr := trueRanges (high.zip (low.zip close))
    let seed := ((tr.drop 1).take period).sum / (period : ℚ)
    List.replicate period none ++ [some seed]
      ++ (wilderAtr period seed (tr.drop (period + 1))).map some

/-! ## signals.py -/

/-- `SignalType` (source: `signals.py`, lines 22-26). -/
inductive SignalType
  | NONE
  | LONG
  | SHORT
deriving DecidableEq, Repr

/-- A trading `Signal` (source: `signals.py`, lines 29-48).  `ema_value` and
`rsi_value` are the reference floats the source stores (NaNs already replaced
by `0.0` at construction sites, so plain rationals here). -/
structure Signal where
  signal_type : SignalType
  entry_price : ℚ
  ema_value : ℚ
  rsi_value : ℚ
deriving DecidableEq, Repr

/-- `SignalGenerator`'s configuration fields (source: `signals.py`,
lines 72-91). -/
structure SignalGenerator where
  ema_period : ℕ
  rsi_period : ℕ
  rsi_oversold : ℚ
  rsi_overbought : ℚ
deriving Repr

/-- The effective current close of `SignalGenerator.generate` (source:
`signals.py`, line 130): `current_price if current_price else
close_prices[-1]`, a Python truthiness test, so an explicit `0.0` argument
falls back to the last close exactly like an absent argument. -/
def currentClose (close_prices : List ℚ) (current_price : Option ℚ) : ℚ :=
  match current_price with
  | some c => if c = 0 then close_prices.getLastD 0 else c
  | none => close_prices.getLastD 0

/-- `SignalGenerator.generate` (source: `signals.py`, lines 98-182).
History shorter than `max(ema_period, rsi_period) + 2` yields a zeroed NONE
signal; a NaN among current EMA, current RSI, previous RSI yields NONE with
the NaNs reported as `0.0`; otherwise the LONG branch requires
`close > ema` with an upward RSI crossing of the oversold level, the SHORT
branch (an `elif`) requires `close < ema` with a downward crossing of the
overbought level. -/
def generate (g : SignalGenerator) (close_prices : List ℚ)
    (current_price : Option ℚ) : Signal :=
  if close_prices.length < max g.ema_period g.rsi_period + 2 then
    ⟨SignalType.NONE, 0, 0, 0⟩
  else
    let ema := calculate_ema close_prices g.ema_period
    let rsi := calculate_rsi close_prices g.rsi_period
    let cc := currentClose close_prices current_price
    let currentEma := ema.getLastD none
    let currentRsi := rsi.getLastD none
    let previousRsi := rsi.dropLast.getLastD none
    match currentEma, currentRsi, previousRsi with
    | some ce, some cr, some pr =>
      let st :=
        if cc > ce then
          if pr ≤ g.rsi_oversold ∧ g.rsi_oversold < cr then SignalType.LONG
          else SignalType.NONE
        else if cc < ce then
          if pr ≥ g.rsi_overbought ∧ g.rsi_overbought > cr then SignalType.SHORT
          else SignalType.NONE
        else SignalType.NONE
      ⟨st, cc, ce, cr⟩
    | e, r, _ => ⟨SignalType.NONE, cc, e.getD 0, r.getD 0⟩

/-! ## risk_manager.py -/

/-- `RiskLevels` (source: `risk_manager.py`, lines 23-37). -/
structure RiskLevels where
  stop_loss : ℚ
  take_profit : ℚ
  atr_value : ℚ
  risk_distance : ℚ
deriving DecidableEq, Repr

/-- `RiskManager`'s configuration fields (source: `risk_manager.py`,
lines 54-70). -/
structure RiskManager where
  atr_period : ℕ
  sl_multiplier : ℚ
  tp_multiplier : ℚ
deriving Repr

/-- `RiskManager.calculate_levels` (source: `risk_manager.py`,
lines 77-132).  `atr[-1]` is read through `getLastD none`; NaN or
non-positive ATR yields `none` (for an empty series the source's `atr[-1]`
would raise, which the orchestrator's non-empty fetch rules out — here the
empty case also yields `none`). -/
def calculate_levels (rm : RiskManager) (signal_type : SignalType)
    (entry_price : ℚ) (high low close : List ℚ) : Option RiskLevels :=
  if signal_type = SignalType.NONE then none
  else
    match (calculate_atr high low close rm.atr_period).getLastD none with
    | none => none
    | some a =>
      if a ≤ 0 then none
      else
        let sl_distance := a * rm.sl_multiplier
        let tp_distance := a * rm.tp_multiplier
        if signal_type = SignalType.LONG then
          some ⟨entry_price - sl_distance, entry_price + tp_distance, a, sl_distance⟩
        else
          some ⟨entry_price + sl_distance, entry_price - tp_distance, a, sl_distance⟩

/-- `TrailingState` (source: `risk_manager.py`, lines 135-155). -/
structure TrailingState where
  ticket : ℕ
  entry_price : ℚ
  initial_sl : ℚ
  current_sl : ℚ
  risk_distance : ℚ
  is_breakeven : Bool := false
  is_trailing : Bool := false
deriving DecidableEq, Repr

/-- `TrailingStopManager` (source: `risk_manager.py`, lines 158-191): the
two configuration fields plus the `_positions` dictionary, embedded as an
association list keyed by ticket. -/
structure TrailingStopManager where
  breakeven_rr : ℚ
  trailing_atr_mult : ℚ
  positions : List (ℕ × TrailingState) := []
deriving DecidableEq, Repr

/-- Store a binding in the association list, overwriting an existing key
(Python dictionary assignment). -/
def setPos (ps : List (ℕ × TrailingState)) (t : ℕ) (s : TrailingState) :
    List (ℕ × TrailingState) :=
  match ps with
  | [] => [(t, s)]
  | (k, v) :: rest => if k = t then (t, s) :: rest else (k, v) :: setPos rest t s

/-- `TrailingStopManager.register_position` (source: `risk_manager.py`,
lines 193-216). -/
def register_position (m : TrailingStopManager) (ticket : ℕ)
    (entry_price stop_loss risk_distance : ℚ) : TrailingStopManager :=
  let s : TrailingState :=
    { ticket := ticket, entry_price := entry_price, initial_sl := stop_loss,
      current_sl := stop_loss, risk_distance := risk_distance }
  { m with positions := setPos m.positions ticket s }

/-- The profit expressed in risk units (source: `risk_manager.py`,
lines 255-261): `profit_distance / risk_distance` when the risk distance is
positive, else `0` defensively. -/
def profitRR (s : TrailingState) (current_price : ℚ) (is_long : Bool) : ℚ :=
  let pd := if is_long then current_price - s.entry_price
            else s.entry_price - current_price
  if s.risk_distance > 0 then pd / s.risk_distance else 0

/-- The body of `TrailingStopManager.update` once the ticket is found
(source: `risk_manager.py`, lines 252-314): the breakeven branch fires when
not yet breakeven and `profit_rr >= breakeven_rr`, moving the stop to entry
and latching both flags; otherwise (`elif`) an already-trailing position
trails by `current_atr * trailing_atr_mult`, applied only strictly
profitward of the current stop. -/
def updateState (m : TrailingStopManager) (s : TrailingState)
    (current_price current_atr : ℚ) (is_long : Bool) :
    Option ℚ × TrailingState :=
  if s.is_breakeven = false ∧ m.breakeven_rr ≤ profitRR s current_price is_long then
    (some s.entry_price,
     { s with is_breakeven := true, is_trailing := true,
              current_sl := s.entry_price })
  else if s.is_trailing then
    let trailing_distance := current_atr * m.trailing_atr_mult
    if is_long then
      let potential_sl := current_price - trailing_distance
      if s.current_sl < potential_sl then
        (some potential_sl, { s with current_sl := potential_sl })
      else (none, s)
    else
      let potential_sl := current_price + trailing_distance
      if potential_sl < s.current_sl then
        (some potential_sl, { s with current_sl := potential_sl })
      else (none, s)
  else (none, s)

/-- `TrailingStopManager.update` (source: `risk_manager.py`, lines 224-314).
An unknown ticket logs a warning and returns `None` with no state change;
otherwise the found state is transformed by `updateState` and written back. -/
def update (m : TrailingStopManager) (ticket : ℕ)
    (current_price current_atr : ℚ) (is_long : Bool) :
    Option ℚ × TrailingStopManager :=
  match m.positions.lookup ticket with
  | none => (none, m)
  | some s =>
    let r := updateState m s current_price current_atr is_long
    (r.1, { m with positions := setPos m.positions ticket r.2 })

/-- A sequence of `update` calls on one ticket with a fixed direction, each
call supplying a `(current_price, current_atr)` pair. -/
def runUpdates (m : TrailingStopManager) (ticket : ℕ) (is_long : Bool) :
    List (ℚ × ℚ) → TrailingStopManager
  | [] => m
  | (p, a) :: rest =>
    runUpdates (update m ticket p a is_long).2 ticket is_long rest

/-- The guard of the breakeven branch (source: `risk_manager.py`,
line 269): it fires exactly when the position is not yet breakeven and the
profit has reached the configured risk-reward ratio. -/
def breakevenFires (m : TrailingStopManager) (s : TrailingState)
    (current_price : ℚ) (is_long : Bool) : Prop :=
  s.is_breakeven = false ∧ m.breakeven_rr ≤ profitRR s current_price is_long

instance (m : TrailingStopManager) (s : TrailingState) (p : ℚ) (l : Bool) :
    Decidable (breakevenFires m s p l) := by
  unfold breakevenFires; infer_instance

/-! ## kill_switch.py -/

/-- `KillSwitch`'s state (source: `kill_switch.py`, lines 27-33). -/
structure KillSwitch where
  drawdown_limit : ℚ
  magic_number : ℕ := 0
  starting_equity : Option ℚ := none
  is_triggered : Bool := false
  is_initialized : Bool := false
deriving DecidableEq, Repr

/-- `KillSwitch.check` (source: `kill_switch.py`, lines 48-68).  The
`mt5.account_info()` read is the explicit `equity` argument (`none` models
an unavailable account).  Already triggered short-circuits; uninitialized
returns `false`; an unreadable equity while armed latches the trigger;
otherwise the drawdown is compared with the limit. -/
def check (k : KillSwitch) (equity : Option ℚ) : Bool × KillSwitch :=
  if k.is_triggered then (true, k)
  else if k.is_initialized = false then (false, k)
  else
    match k.starting_equity with
    | none => (false, k)
    | some s =>
      match equity with
      | none => (true, { k with is_triggered := true })
      | some e =>
        if (s - e) / s ≥ k.drawdown_limit then (true, { k with is_triggered := true })
        else (false, k)

/-- A broker position as `execute_kill` reads it (source: `kill_switch.py`,
lines 81-104): ticket, symbol (symbols are coded as naturals), traded
volume, direction (`type_is_buy` for `ORDER_TYPE_BUY`), and the magic
number it carries. -/
structure KSPosition where
  ticket : ℕ
  symbol : ℕ
  volume : ℚ
  type_is_buy : Bool
  magic : ℕ
deriving DecidableEq, Repr

/-- A close request as `execute_kill` assembles it (source:
`kill_switch.py`, lines 92-104): the fields that vary per position. -/
structure CloseRequest where
  position : ℕ
  symbol : ℕ
  volume : ℚ
  close_is_buy : Bool
  price : ℚ
  magic : ℕ
deriving DecidableEq, Repr

/-- The per-position body of `execute_kill`'s loop (source:
`kill_switch.py`, lines 81-104): skip when a positive magic number is
configured and differs from the position's; skip when no tick is available;
otherwise close a buy by selling at the bid and a sell by buying at the
ask. -/
def killRequest (k : KillSwitch) (tick : ℕ → Option (ℚ × ℚ))
    (pos : KSPosition) : Option CloseRequest :=
  if k.magic_number > 0 ∧ pos.magic ≠ k.magic_number then none
  else
    match tick pos.symbol with
    | none => none
    | some (bid, ask) =>
      some { position := pos.ticket, symbol := pos.symbol,
             volume := pos.volume, close_is_buy := pos.type_is_buy = false,
             price := if pos.type_is_buy then bid else ask,
             magic := pos.magic }

/-- `KillSwitch.execute_kill` (source: `kill_switch.py`, lines 70-111).
`positions` models `mt5.positions_get()` (`none` = unavailable), `tick`
models `mt5.symbol_info_tick` as bid/ask per symbol, and `send_ok` models
whether `mt5.order_send` returns `TRADE_RETCODE_DONE`.  The result is the
count of successful closes together with the list of close requests
issued. -/
def execute_kill (k : KillSwitch) (positions : Option (List KSPosition))
    (tick : ℕ → Option (ℚ × ℚ)) (send_ok : CloseRequest → Bool) :
    ℕ × List CloseRequest :=
  if k.is_triggered = false then (0, [])
  else
    match positions with
    | none => (0, [])
    | some ps =>
      let reqs := ps.filterMap (killRequest k tick)
      ((reqs.filter send_ok).length, reqs)

/-! ## main.py (orchestrator fragments) -/

/-- The orchestrator's ATR substitution (source: `main.py`, line 261):
`current_atr = atr[-1] if not np.isnan(atr[-1]) else 0`, i.e. an undefined
current ATR is replaced by `0` before the trailing updates. -/
def effective_atr (a : Option ℚ) : ℚ :=
  match a with
  | some x => x
  | none => 0

/-! ## Directional orderings used to state the trailing-stop claims -/

/-- `a` is no further profitward than `b`: `a ≤ b` for a long position,
`b ≤ a` for a short one. -/
def dirLe (is_long : Bool) (a b : ℚ) : Prop :=
  if is_long then a ≤ b else b ≤ a

/-- `b` is strictly profitward of `a`: `a < b` for a long position,
`b < a` for a short one. -/
def dirLt (is_long : Bool) (a b : ℚ) : Prop :=
  if is_long then a < b else b < a

instance (l : Bool) (a b : ℚ) : Decidable (dirLe l a b) := by
  unfold dirLe; infer_instance

instance (l : Bool) (a b : ℚ) : Decidable (dirLt l a b) := by
  unfold dirLt; infer_instance

/-- The reachable-state invariant of `TrailingStopManager`: the two latch
flags agree (they are only ever set together, by the breakeven branch), and
before breakeven the stop still sits strictly on the loss side of entry,
as `register_position` establishes for any direction-coherent initial
stop. -/
def trailInv (is_long : Bool) (s : TrailingState) : Prop :=
  s.is_trailing = s.is_breakeven ∧
    (s.is_breakeven = false → dirLt is_long s.current_sl s.entry_price)

instance (l : Bool) (s : TrailingState) : Decidable (trailInv l s) := by
  unfold trailInv; infer_instance

/-! ## Concrete fixtures used by witnesses and counterexamples -/

/-- Register a position and run a sequence of update calls on it. -/
def registeredRun (m : TrailingStopManager) (t : ℕ) (l : Bool)
    (entry stop risk : ℚ) (calls : List (ℚ × ℚ)) : TrailingStopManager :=
  runUpdates (register_position m t entry stop risk) t l calls

/-- Concrete fixtures for the breakeven claims: a long position registered at
entry 100 with stop 99 and unit risk distance, not yet breakeven. -/
def sC2 : TrailingState :=
  { ticket := 1, entry_price := 100, initial_sl := 99, current_sl := 99,
    risk_distance := 1 }

/-- A manager with default configuration tracking `sC2`. -/
def mgrC2 : TrailingStopManager :=
  { breakeven_rr := 1, trailing_atr_mult := 1, positions := [(1, sC2)] }

/-- A kill switch armed at starting equity 10000 with the default 5%
drawdown limit. -/
def kC3 : KillSwitch :=
  { drawdown_limit := 5 / 100, magic_number := 0, starting_equity := some 10000,
    is_triggered := false, is_initialized := true }

/-- The tracked state of the C4 fixture: a long position past breakeven and
trailing, entry 100, current stop 100. -/
def sC4 : TrailingState :=
  { ticket := 1, entry_price := 100, initial_sl := 99, current_sl := 100,
    risk_distance := 1, is_breakeven := true, is_trailing := true }

/-- A manager with default configuration tracking `sC4`. -/
def mgrC4 : TrailingStopManager :=
  { breakeven_rr := 1, trailing_atr_mult := 1, positions := [(1, sC4)] }

/-- The tracked state of the C5 fixture: a long position not yet breakeven,
entry 100, stop 99, unit risk distance. -/
def sC5 : TrailingState :=
  { ticket := 1, entry_price := 100, initial_sl := 99, current_sl := 99,
    risk_distance := 1 }

/-- A manager with default configuration tracking only ticket 1. -/
def mgrC5 : TrailingStopManager :=
  { breakeven_rr := 1, trailing_atr_mult := 1, positions := [(1, sC5)] }

/-- High prices of the C6 fixture: two bars with true range 0.0020. -/
def highC6 : List ℚ := [1102 / 1000, 1103 / 1000]

/-- Low prices of the C6 fixture. -/
def lowC6 : List ℚ := [1100 / 1000, 1101 / 1000]

/-- Close prices of the C6 fixture. -/
def closeC6 : List ℚ := [1101 / 1000, 1102 / 1000]

/-- A risk manager with ATR period 1, slMult 1.5, tpMult 2.0. -/
def rmC6 : RiskManager := { atr_period := 1, sl_multiplier := 3 / 2, tp_multiplier := 2 }

/-- A signal generator with trivially small periods, for the C7 witness. -/
def gC7 : SignalGenerator :=
  { ema_period := 1, rsi_period := 1, rsi_oversold := 30, rsi_overbought := 70 }

/-- Two open positions of the C9 fixture, with distinct foreign magic
numbers 42 and 99. -/
def psC9 : List KSPosition :=
  [{ ticket := 11, symbol := 7, volume := 1, type_is_buy := true, magic := 42 },
   { ticket := 12, symbol := 7, volume := 2, type_is_buy := false, magic := 99 }]

/-- A triggered kill switch with the default `magic_number = 0`. -/
def kC9 : KillSwitch :=
  { drawdown_limit := 5 / 100, magic_number := 0, starting_equity := some 10000,
    is_triggered := true, is_initialized := true }

/-- A tick source quoting bid 9 / ask 10 for every symbol. -/
def tickC9 : ℕ → Option (ℚ × ℚ) := fun _ => some (9, 10)

/-- An order channel on which every close request succeeds. -/
def okC9 : CloseRequest → Bool := fun _ => true

/-- A signal generator with trivially small periods, for the C10 witness. -/
def gC10 : SignalGenerator :=
  { ema_period := 1, rsi_period := 1, rsi_oversold := 30, rsi_overbought := 70 }

/-! ## Basic lemmas about the embedding -/

theorem dirLe_refl (l : Bool) (a : ℚ) : dirLe l a a := by
  cases l <;> simp [dirLe]

theorem dirLt_dirLe {l : Bool} {a b : ℚ} (h : dirLt l a b) : dirLe l a b := by
  cases l <;> simp only [dirLe, dirLt] at * <;> exact le_of_lt h

theorem dirLe_trans {l : Bool} {a b c : ℚ} (h1 : dirLe l a b) (h2 : dirLe l b c) :
    dirLe l a c := by
  cases l <;> simp [dirLe] at *
  · exact le_trans h2 h1
  · exact le_trans h1 h2

theorem lookup_setPos (ps : List (ℕ × TrailingState)) (t : ℕ) (s : TrailingState) :
    List.lookup t (setPos ps t s) = some s := by
  induction ps with
  | nil => simp [setPos, List.lookup]
  | cons kv rest ih =>
    obtain ⟨k, v⟩ := kv
    by_cases hk : k = t
    · subst hk
      simp [setPos, List.lookup]
    · have hbeq : (t == k) = false := beq_eq_false_iff_ne.mpr (Ne.symm hk)
      simp [setPos, hk, List.lookup, ih, hbeq]

theorem update_found (m : TrailingStopManager) (t : ℕ) (p a : ℚ) (l : Bool)
    (s : TrailingState) (h : m.positions.lookup t = some s) :
    update m t p a l = ((updateState m s p a l).1,
      { m with positions := setPos m.positions t (updateState m s p a l).2 }) := by
  simp [update, h]

theorem update_not_found (m : TrailingStopManager) (t : ℕ) (p a : ℚ) (l : Bool)
    (h : m.positions.lookup t = none) :
    update m t p a l = (none, m) := by
  simp [update, h]

/-- One `updateState` call preserves the reachable-state invariant, never
moves the stored stop against the profit direction, leaves the state
untouched on a `none` result, and any returned stop is strictly profitward
of the stop it replaces and is stored. -/
theorem updateState_step (m : TrailingStopManager) (s : TrailingState) (p a : ℚ)
    (l : Bool) (hInv : trailInv l s) :
    trailInv l (updateState m s p a l).2 ∧
    dirLe l s.current_sl (updateState m s p a l).2.current_sl ∧
    ((updateState m s p a l).1 = none → (updateState m s p a l).2 = s) ∧
    (∀ v, (updateState m s p a l).1 = some v →
      dirLt l s.current_sl v ∧ (updateState m s p a l).2.current_sl = v) := by
  obtain ⟨hflag, hsl⟩ := hInv
  by_cases hbk : s.is_breakeven = false ∧ m.breakeven_rr ≤ profitRR s p l
  · have hlt : dirLt l s.current_sl s.entry_price := hsl hbk.1
    rw [updateState, if_pos hbk]
    refine ⟨⟨rfl, by intro h; simp at h⟩, dirLt_dirLe hlt, by intro h; simp at h, ?_⟩
    intro v hv
    simp only [Option.some.injEq] at hv
    exact hv ▸ ⟨hlt, rfl⟩
  · rw [updateState, if_neg hbk]
    by_cases htr : s.is_trailing = true
    · have hbkt : s.is_breakeven = true := by rw [hflag] at htr; exact htr
      rw [if_pos htr]
      cases l
      · simp only [Bool.false_eq_true, if_false]
        by_cases hcmp : p + a * m.trailing_atr_mult < s.current_sl
        · rw [if_pos hcmp]
          refine ⟨⟨by simp [htr, hbkt], by simp [hbkt]⟩, ?_, by intro h; simp at h, ?_⟩
          · simp [dirLe]
            exact le_of_lt hcmp
          · intro v hv
            simp only [Option.some.injEq] at hv
            refine hv ▸ ⟨?_, rfl⟩
            simp [dirLt]
            exact hcmp
        · rw [if_neg hcmp]
          exact ⟨⟨hflag, hsl⟩, dirLe_refl _ _, fun _ => rfl, fun v hv => by simp at hv⟩
      · simp only [if_true]
        by_cases hcmp : s.current_sl < p - a * m.trailing_atr_mult
        · rw [if_pos hcmp]
          refine ⟨⟨by simp [htr, hbkt], by simp [hbkt]⟩, ?_, by intro h; simp at h, ?_⟩
          · simp [dirLe]
            exact le_of_lt hcmp
          · intro v hv
            simp only [Option.some.injEq] at hv
            refine hv ▸ ⟨?_, rfl⟩
            simp [dirLt]
            exact hcmp
        · rw [if_neg hcmp]
          exact ⟨⟨hflag, hsl⟩, dirLe_refl _ _, fun _ => rfl, fun v hv => by simp at hv⟩
    · rw [if_neg htr]
      exact ⟨⟨hflag, hsl⟩, dirLe_refl _ _, fun _ => rfl, fun v hv => by simp at hv⟩

/-- When the breakeven branch does not fire, `updateState` leaves the
breakeven latch unchanged. -/
theorem updateState_bk_of_not_fire (m : TrailingStopManager) (s : TrailingState)
    (p a : ℚ) (l : Bool)
    (hnf : ¬(s.is_breakeven = false ∧ m.breakeven_rr ≤ profitRR s p l)) :
    (updateState m s p a l).2.is_breakeven = s.is_breakeven := by
  rw [updateState, if_neg hnf]
  split_ifs <;> cases l <;> simp <;> split_ifs <;> rfl

/-- The breakeven latch is one-way under `updateState`. -/
theorem updateState_bk_mono (m : TrailingStopManager) (s : TrailingState)
    (p a : ℚ) (l : Bool) (hbk : s.is_breakeven = true) :
    (updateState m s p a l).2.is_breakeven = true := by
  have hnf : ¬(s.is_breakeven = false ∧ m.breakeven_rr ≤ profitRR s p l) := by
    rw [hbk]; rintro ⟨h, -⟩; cases h
  rw [updateState_bk_of_not_fire m s p a l hnf]
  exact hbk

/-- Across any sequence of updates, a tracked position stays tracked, keeps
the invariant, and its stored stop never moves against the profit
direction. -/
theorem runUpdates_inv (t : ℕ) (l : Bool) (calls : List (ℚ × ℚ)) :
    ∀ (m : TrailingStopManager) (s : TrailingState),
      m.positions.lookup t = some s → trailInv l s →
      ∃ s2, (runUpdates m t l calls).positions.lookup t = some s2 ∧
        trailInv l s2 ∧ dirLe l s.current_sl s2.current_sl := by
  induction calls with
  | nil => exact fun m s h hInv => ⟨s, h, hInv, dirLe_refl l s.current_sl⟩
  | cons pa rest ih =>
    intro m s h hInv
    obtain ⟨p, a⟩ := pa
    have hstep := updateState_step m s p a l hInv
    have hu := update_found m t p a l s h
    have hl2 : (update m t p a l).2.positions.lookup t
        = some (updateState m s p a l).2 := by
      rw [hu]; exact lookup_setPos m.positions t _
    obtain ⟨s2, h2, hinv2, hle⟩ := ih (update m t p a l).2 _ hl2 hstep.1
    refine ⟨s2, ?_, hinv2, dirLe_trans hstep.2.1 hle⟩
    simpa [runUpdates] using h2

/-- Across any sequence of updates, a position whose breakeven latch is set
stays tracked with the latch still set. -/
theorem runUpdates_breakeven (t : ℕ) (l : Bool) (calls : List (ℚ × ℚ)) :
    ∀ (m : TrailingStopManager) (s : TrailingState),
      m.positions.lookup t = some s → s.is_breakeven = true →
      ∃ s2, (runUpdates m t l calls).positions.lookup t = some s2 ∧
        s2.is_breakeven = true := by
  induction calls with
  | nil => exact fun m s h hbk => ⟨s, h, hbk⟩
  | cons pa rest ih =>
    intro m s h hbk
    obtain ⟨p, a⟩ := pa
    have hu := update_found m t p a l s h
    have hl2 : (update m t p a l).2.positions.lookup t
        = some (updateState m s p a l).2 := by
      rw [hu]; exact lookup_setPos m.positions t _
    obtain ⟨s2, h2, hb2⟩ := ih (update m t p a l).2 _ hl2
      (updateState_bk_mono m s p a l hbk)
    refine ⟨s2, ?_, hb2⟩
    simpa [runUpdates] using h2

/-- A freshly registered position is tracked with both latches off and the
registered values. -/
theorem lookup_register (m : TrailingStopManager) (t : ℕ)
    (entry stop risk : ℚ) :
    (register_position m t entry stop risk).positions.lookup t
      = some ⟨t, entry, stop, stop, risk, false, false⟩ := by
  simp only [register_position]
  exact lookup_setPos m.positions t _

/-- C1: for every registered position (registered, as the orchestrator always
does, with its initial stop strictly on the loss side of entry) and every
sequence of `TrailingStopManager.update` calls on it with a fixed direction,
the stored current stop never decreases for a long position and never
increases for a short one (`dirLe`); and at any point of the sequence one
more update either returns no change and leaves the stored stop untouched,
or returns a new stop strictly in the profit direction relative to the
current stop (`dirLt`) and stores it. -/
theorem trailing_stop_directional_monotonicity
    (m : TrailingStopManager) (t : ℕ) (l : Bool) (entry stop risk p a : ℚ)
    (calls : List (ℚ × ℚ)) (hstop : dirLt l stop entry) :
    ∃ s2, (registeredRun m t l entry stop risk calls).positions.lookup t = some s2 ∧
      dirLe l stop s2.current_sl ∧
      ∃ s3, (update (registeredRun m t l entry stop risk calls) t p a l).2.positions.lookup t
          = some s3 ∧
        ((update (registeredRun m t l entry stop risk calls) t p a l).1 = none →
          s3.current_sl = s2.current_sl) ∧
        (∀ v, (update (registeredRun m t l entry stop risk calls) t p a l).1 = some v →
          dirLt l s2.current_sl v ∧ s3.current_sl = v) := by
  simp only [registeredRun]
  have hreg := lookup_register m t entry stop risk
  have hinv0 : trailInv l ⟨t, entry, stop, stop, risk, false, false⟩ :=
    ⟨rfl, fun _ => hstop⟩
  obtain ⟨s2, h2, hinv2, hle⟩ := runUpdates_inv t l calls _ _ hreg hinv0
  have hstep := updateState_step (runUpdates (register_position m t entry stop risk) t l calls)
    s2 p a l hinv2
  have hu := update_found (runUpdates (register_position m t entry stop risk) t l calls)
    t p a l s2 h2
  refine ⟨s2, h2, hle,
    (updateState (runUpdates (register_position m t entry stop risk) t l calls) s2 p a l).2,
    ?_, ?_, ?_⟩
  · rw [hu]; exact lookup_setPos _ t _
  · intro hnone
    rw [hu] at hnone
    exact congrArg TrailingState.current_sl (hstep.2.2.1 hnone)
  · intro v hv
    rw [hu] at hv
    exact hstep.2.2.2 v hv

/-- C1 witness: a concrete long position registered at entry 100 with stop
99, one update that triggers breakeven, then one more probe update. -/
theorem trailing_stop_directional_monotonicity_witness :
    dirLt true (99 : ℚ) 100 ∧
    ∃ s2, (registeredRun ⟨1, 1, []⟩ 1 true 100 99 1 [(101, 1)]).positions.lookup 1 = some s2 ∧
      dirLe true 99 s2.current_sl ∧
      ∃ s3, (update (registeredRun ⟨1, 1, []⟩ 1 true 100 99 1 [(101, 1)]) 1 102 1 true).2.positions.lookup 1
          = some s3 ∧
        ((update (registeredRun ⟨1, 1, []⟩ 1 true 100 99 1 [(101, 1)]) 1 102 1 true).1 = none →
          s3.current_sl = s2.current_sl) ∧
        (∀ v, (update (registeredRun ⟨1, 1, []⟩ 1 true 100 99 1 [(101, 1)]) 1 102 1 true).1 = some v →
          dirLt true s2.current_sl v ∧ s3.current_sl = v) :=
  ⟨by decide,
   trailing_stop_directional_monotonicity ⟨1, 1, []⟩ 1 true 100 99 1 102 1 [(101, 1)]
     (by decide)⟩

/-- C2: the breakeven transition fires exactly once per tracked position.
Part 1: on the first update where `profitRR ≥ breakevenRR` (the latch still
off), the stop is set to the entry price, that value is returned, and both
latches are set.  Part 2: while the threshold is not reached the latch stays
off, so the transition indeed happens at the first qualifying call.  Part 3:
once the latch is on it stays on across every later sequence of updates, and
the breakeven branch can never fire again at any price — even one whose
profit is below the threshold. -/
theorem breakeven_triggers_exactly_once
    (m : TrailingStopManager) (t : ℕ) (p a p2 : ℚ) (l : Bool)
    (s : TrailingState) (calls : List (ℚ × ℚ))
    (h : m.positions.lookup t = some s) :
    (s.is_breakeven = false → m.breakeven_rr ≤ profitRR s p l →
      (update m t p a l).1 = some s.entry_price ∧
      ∃ s1, (update m t p a l).2.positions.lookup t = some s1 ∧
        s1.is_breakeven = true ∧ s1.is_trailing = true ∧
        s1.current_sl = s.entry_price) ∧
    (s.is_breakeven = false → ¬ m.breakeven_rr ≤ profitRR s p l →
      ∃ s1, (update m t p a l).2.positions.lookup t = some s1 ∧
        s1.is_breakeven = false) ∧
    (s.is_breakeven = true →
      ∃ s2, (runUpdates m t l calls).positions.lookup t = some s2 ∧
        s2.is_breakeven = true ∧ ¬ breakevenFires m s2 p2 l) := by
  have hu := update_found m t p a l s h
  refine ⟨?_, ?_, ?_⟩
  · intro hbk hrr
    have hg : s.is_breakeven = false ∧ m.breakeven_rr ≤ profitRR s p l := ⟨hbk, hrr⟩
    constructor
    · rw [hu]
      show (updateState m s p a l).1 = some s.entry_price
      rw [updateState, if_pos hg]
    · refine ⟨(updateState m s p a l).2, by rw [hu]; exact lookup_setPos m.positions t _, ?_⟩
      rw [updateState, if_pos hg]
      exact ⟨rfl, rfl, rfl⟩
  · intro hbk hrr
    have hnf : ¬(s.is_breakeven = false ∧ m.breakeven_rr ≤ profitRR s p l) :=
      fun hc => hrr hc.2
    refine ⟨(updateState m s p a l).2, by rw [hu]; exact lookup_setPos m.positions t _, ?_⟩
    rw [updateState_bk_of_not_fire m s p a l hnf]
    exact hbk
  · intro hbk
    obtain ⟨s2, h2, hb2⟩ := runUpdates_breakeven t l calls m s h hbk
    refine ⟨s2, h2, hb2, ?_⟩
    rintro ⟨hc, -⟩
    rw [hb2] at hc
    cases hc

/-- C2 witness: the tracked long position `sC2` at price 101 (profit 1R)
fires breakeven; afterwards a drop to price 95 never re-fires it. -/
theorem breakeven_triggers_exactly_once_witness :
    mgrC2.positions.lookup 1 = some sC2 ∧
    ((sC2.is_breakeven = false → mgrC2.breakeven_rr ≤ profitRR sC2 101 true →
      (update mgrC2 1 101 1 true).1 = some sC2.entry_price ∧
      ∃ s1, (update mgrC2 1 101 1 true).2.positions.lookup 1 = some s1 ∧
        s1.is_breakeven = true ∧ s1.is_trailing = true ∧
        s1.current_sl = sC2.entry_price) ∧
    (sC2.is_breakeven = false → ¬ mgrC2.breakeven_rr ≤ profitRR sC2 101 true →
      ∃ s1, (update mgrC2 1 101 1 true).2.positions.lookup 1 = some s1 ∧
        s1.is_breakeven = false) ∧
    (sC2.is_breakeven = true →
      ∃ s2, (runUpdates mgrC2 1 true [(95, 1)]).positions.lookup 1 = some s2 ∧
        s2.is_breakeven = true ∧ ¬ breakevenFires mgrC2 s2 95 true)) :=
  ⟨by decide,
   breakeven_triggers_exactly_once mgrC2 1 101 1 95 true sC2 [(95, 1)] (by decide)⟩

/-- C3: `KillSwitch.check`.  Already triggered: the result is `(true, k)` for
every equity argument — the state is unchanged, the flag stays `true`, and
the result does not depend on the equity reading (so no recomputation is
observable).  Armed (not triggered, initialized, starting equity recorded):
the call triggers — returns `true` and latches the flag — exactly when
`(startingEquity - currentEquity) / startingEquity ≥ limit`; with starting
equity `10000` and limit `0.05` that is exactly `equity ≤ 9500`; and an
unreadable equity triggers defensively.  (`execute_kill` cannot reset the
latch: its embedding neither takes nor returns a mutable switch state.) -/
theorem kill_switch_check_spec (k : KillSwitch) (s e : ℚ) (eq1 eq2 : Option ℚ) :
    (k.is_triggered = true → check k eq1 = (true, k) ∧ check k eq1 = check k eq2) ∧
    (k.is_triggered = false → k.is_initialized = true → k.starting_equity = some s →
      ((((check k (some e)).1 = true) ∧ (check k (some e)).2.is_triggered = true) ↔
        k.drawdown_limit ≤ (s - e) / s) ∧
      check k none = (true, { k with is_triggered := true }) ∧
      (s = 10000 → k.drawdown_limit = 5 / 100 →
        ((check k (some e)).1 = true ↔ e ≤ 9500))) := by
  refine ⟨fun ht => ?_, fun ht hi hs => ⟨?_, ?_, ?_⟩⟩
  · rw [check, if_pos ht, check, if_pos ht]
    exact ⟨rfl, rfl⟩
  · by_cases hd : k.drawdown_limit ≤ (s - e) / s
    · simp [check, ht, hi, hs, ge_iff_le, hd]
    · simp [check, ht, hi, hs, ge_iff_le, hd]
  · simp [check, ht, hi, hs]
  · intro h10 hdl
    subst h10
    have key : ((5 / 100 : ℚ) ≤ (10000 - e) / 10000) ↔ e ≤ 9500 := by
      rw [le_div_iff₀ (by norm_num : (0 : ℚ) < 10000)]
      constructor <;> intro hh <;> linarith
    by_cases hd : (5 / 100 : ℚ) ≤ (10000 - e) / 10000
    · simp [check, ht, hi, hs, ge_iff_le, hdl, hd, key.mp hd]
    · simp [check, ht, hi, hs, ge_iff_le, hdl, hd]
      exact lt_of_not_le fun hh => hd (key.mpr hh)

/-- C3 witness: with `kC3`, equity 9500 triggers and equity 9501 does not,
both read off `kill_switch_check_spec` at concrete inputs. -/
theorem kill_switch_check_spec_witness :
    (check kC3 (some 9500)).1 = true ∧ (check kC3 (some 9501)).1 = false := by
  constructor
  · have h := ((kill_switch_check_spec kC3 10000 9500 (some 9500) none).2
      rfl rfl rfl).2.2 rfl rfl
    exact h.mpr (by norm_num)
  · have h := ((kill_switch_check_spec kC3 10000 9501 (some 9501) none).2
      rfl rfl rfl).2.2 rfl rfl
    cases hb : (check kC3 (some 9501)).1
    · rfl
    · exact absurd (h.mp hb) (by norm_num)

/-- C4 counterexample: on a bar whose ATR is undefined the orchestrator
passes `effective_atr none = 0` to `update`; for the already-trailing
position `sC4` at price 101 that update DOES change the stop — it returns
`some 101` and stores current stop 101 (the trailing rule runs with zero
distance; it is not skipped). -/
theorem undefined_atr_stop_change_cex :
    (update mgrC4 1 101 (effective_atr none) true).1 = some 101 ∧
    (update mgrC4 1 101 (effective_atr none) true).2.positions.lookup 1 =
      some { ticket := 1, entry_price := 100, initial_sl := 99, current_sl := 101,
             risk_distance := 1, is_breakeven := true, is_trailing := true } := by
  have hs : updateState mgrC4 sC4 101 (effective_atr none) true
      = (some 101, { sC4 with current_sl := 101 }) := by
    norm_num [updateState, profitRR, sC4, mgrC4, effective_atr]
  have hu := update_found mgrC4 1 101 (effective_atr none) true sC4 (by decide)
  rw [hu, hs]
  exact ⟨rfl, by decide⟩

/-- C4 amended: on a bar with undefined ATR the orchestrator substitutes
zero and still calls `update`; for an already-trailing position the trailing
rule then runs with zero trailing distance, so the stop moves to the current
price exactly when that is strictly on the profit side of the current stop,
and is unchanged otherwise. -/
theorem undefined_atr_trailing_zero_distance
    (m : TrailingStopManager) (t : ℕ) (s : TrailingState) (p : ℚ) (l : Bool)
    (h : m.positions.lookup t = some s) (hbk : s.is_breakeven = true)
    (htr : s.is_trailing = true) :
    (update m t p (effective_atr none) l).1
        = (if dirLt l s.current_sl p then some p else none) ∧
    (update m t p (effective_atr none) l).2.positions.lookup t
        = some (if dirLt l s.current_sl p then { s with current_sl := p } else s) := by
  have hu := update_found m t p (effective_atr none) l s h
  have hnf : ¬(s.is_breakeven = false ∧
      m.breakeven_rr ≤ profitRR s p l) := by
    rw [hbk]; rintro ⟨hc, -⟩; cases hc
  have hus : updateState m s p (effective_atr none) l
      = (if dirLt l s.current_sl p then (some p, { s with current_sl := p })
         else (none, s)) := by
    rw [updateState, if_neg hnf, if_pos htr]
    cases l
    · simp only [Bool.false_eq_true, if_false]
      simp [effective_atr, dirLt]
    · simp only [if_true]
      simp [effective_atr, dirLt]
  rw [hu, hus]
  by_cases hd : dirLt l s.current_sl p
  · rw [if_pos hd, if_pos hd, if_pos hd]
    exact ⟨rfl, lookup_setPos m.positions t _⟩
  · rw [if_neg hd, if_neg hd, if_neg hd]
    exact ⟨rfl, lookup_setPos m.positions t _⟩

/-- C4 amended witness: the fixture at price 101 (profitward of stop 100). -/
theorem undefined_atr_trailing_zero_distance_witness :
    mgrC4.positions.lookup 1 = some sC4 ∧
    ((update mgrC4 1 101 (effective_atr none) true).1
        = (if dirLt true sC4.current_sl 101 then some 101 else none) ∧
     (update mgrC4 1 101 (effective_atr none) true).2.positions.lookup 1
        = some (if dirLt true sC4.current_sl 101 then { sC4 with current_sl := 101 }
                else sC4)) :=
  ⟨by decide,
   undefined_atr_trailing_zero_distance mgrC4 1 sC4 101 true (by decide) rfl rfl⟩

/-- C5 counterexample: an unknown-ticket `update` (ticket 2) returns exactly
`(none, mgrC5)` — the very same value as a normal "no stop change" update on
the registered ticket 1 at entry price (profit 0, no breakeven, no
trailing).  The lookup failure is therefore NOT distinguishable from the two
normal outcomes by what the caller receives; it is only logged. -/
theorem unknown_ticket_indistinguishable_cex :
    mgrC5.positions.lookup 2 = none ∧
    update mgrC5 2 100 1 true = (none, mgrC5) ∧
    update mgrC5 1 100 1 true = (none, mgrC5) := by
  refine ⟨by decide, update_not_found mgrC5 2 100 1 true (by decide), ?_⟩
  have hs : updateState mgrC5 sC5 100 1 true = (none, sC5) := by
    norm_num [updateState, profitRR, sC5, mgrC5]
  have hu := update_found mgrC5 1 100 1 true sC5 (by decide)
  rw [hu, hs]
  rfl

/-- C5 amended: calling `update` with an unregistered ticket never fails
(the embedding is a total function), mutates no tracked state, and returns
`none` — the same value as the "no stop change" outcome, so the caller
cannot distinguish the lookup failure from it; the report goes to the log
only. -/
theorem update_unknown_ticket_safe (m : TrailingStopManager) (t : ℕ)
    (p a : ℚ) (l : Bool) (h : m.positions.lookup t = none) :
    (update m t p a l).1 = none ∧ (update m t p a l).2 = m := by
  rw [update_not_found m t p a l h]
  exact ⟨rfl, rfl⟩

/-- C5 amended witness: the unknown ticket 2 against `mgrC5`. -/
theorem update_unknown_ticket_safe_witness :
    mgrC5.positions.lookup 2 = none ∧
    ((update mgrC5 2 100 1 true).1 = none ∧ (update mgrC5 2 100 1 true).2 = mgrC5) :=
  ⟨by decide, update_unknown_ticket_safe mgrC5 2 100 1 true (by decide)⟩

/-- C6: `RiskManager.calculate_levels`.  A NONE signal yields no levels; an
undefined or non-positive last ATR yields no levels; otherwise a LONG signal
yields `stop = entry - ATR·slMult`, `target = entry + ATR·tpMult`, a SHORT
signal the mirrored signs, and the returned `risk_distance = ATR·slMult` is
strictly positive whenever the stop-loss multiplier is. -/
theorem calculate_levels_spec (rm : RiskManager) (st : SignalType) (entry : ℚ)
    (high low close : List ℚ) (a : ℚ) :
    calculate_levels rm SignalType.NONE entry high low close = none ∧
    ((calculate_atr high low close rm.atr_period).getLastD none = none →
      calculate_levels rm st entry high low close = none) ∧
    ((calculate_atr high low close rm.atr_period).getLastD none = some a → a ≤ 0 →
      calculate_levels rm st entry high low close = none) ∧
    ((calculate_atr high low close rm.atr_period).getLastD none = some a → 0 < a →
      calculate_levels rm SignalType.LONG entry high low close =
        some ⟨entry - a * rm.sl_multiplier, entry + a * rm.tp_multiplier, a,
              a * rm.sl_multiplier⟩ ∧
      calculate_levels rm SignalType.SHORT entry high low close =
        some ⟨entry + a * rm.sl_multiplier, entry - a * rm.tp_multiplier, a,
              a * rm.sl_multiplier⟩) ∧
    (∀ rl, calculate_levels rm st entry high low close = some rl →
      0 < rm.sl_multiplier → 0 < rl.risk_distance) := by
  refine ⟨?_, ?_, ?_, ?_, ?_⟩
  · simp [calculate_levels]
  · intro h
    rw [List.getLastD_eq_getLast?] at h
    simp [calculate_levels, h]
  · intro h hle
    rw [List.getLastD_eq_getLast?] at h
    simp [calculate_levels, h, hle]
  · intro h ha
    rw [List.getLastD_eq_getLast?] at h
    have hna : ¬ a ≤ 0 := not_le.mpr ha
    constructor <;> simp [calculate_levels, h, hna]
  · intro rl h hsl
    by_cases hn : st = SignalType.NONE
    · rw [hn] at h
      simp [calculate_levels] at h
    · rcases hA : (calculate_atr high low close rm.atr_period).getLast?.getD none
        with _ | a2
      · simp [calculate_levels, hn, hA] at h
      · by_cases hle : a2 ≤ 0
        · simp [calculate_levels, hn, hA, hle] at h
        · have ha2 : 0 < a2 := not_le.mp hle
          cases st with
          | NONE => exact absurd rfl hn
          | LONG =>
            simp [calculate_levels, hA, hle] at h
            rw [← h]
            exact mul_pos ha2 hsl
          | SHORT =>
            simp [calculate_levels, hA, hle] at h
            rw [← h]
            exact mul_pos ha2 hsl

/-- The initial stop produced by `calculate_levels` always sits strictly on
the loss side of entry (below for LONG, above for SHORT) whenever the
stop-loss multiplier is positive — this is what justifies the registration
hypothesis of the trailing-stop monotonicity theorem: the orchestrator
registers positions only with stops from `calculate_levels`. -/
theorem calculate_levels_stop_loss_side (rm : RiskManager) (entry : ℚ)
    (high low close : List ℚ) (rl : RiskLevels) (hsl : 0 < rm.sl_multiplier) :
    (calculate_levels rm SignalType.LONG entry high low close = some rl →
      rl.stop_loss < entry) ∧
    (calculate_levels rm SignalType.SHORT entry high low close = some rl →
      entry < rl.stop_loss) := by
  constructor <;> intro h <;>
    rcases hA : (calculate_atr high low close rm.atr_period).getLast?.getD none
      with _ | a2
  · simp [calculate_levels, hA] at h
  · by_cases hle : a2 ≤ 0
    · simp [calculate_levels, hA, hle] at h
    · simp [calculate_levels, hA, hle] at h
      have hpos : 0 < a2 * rm.sl_multiplier := mul_pos (not_le.mp hle) hsl
      rw [← h]
      simp only
      linarith
  · simp [calculate_levels, hA] at h
  · by_cases hle : a2 ≤ 0
    · simp [calculate_levels, hA, hle] at h
    · simp [calculate_levels, hA, hle] at h
      have hpos : 0 < a2 * rm.sl_multiplier := mul_pos (not_le.mp hle) hsl
      rw [← h]
      simp only
      linarith

/-- C6 witness: the fixture's ATR is exactly 0.0020, and a LONG at entry
1.10000 yields stop 1.09700 and target 1.10400 with risk distance 0.003. -/
theorem calculate_levels_spec_witness :
    (calculate_atr highC6 lowC6 closeC6 rmC6.atr_period).getLastD none = some (1 / 500) ∧
    (0 : ℚ) < 1 / 500 ∧
    calculate_levels rmC6 SignalType.LONG (11 / 10) highC6 lowC6 closeC6 =
      some ⟨1097 / 1000, 1104 / 1000, 1 / 500, 3 / 1000⟩ := by
  have hA : (calculate_atr highC6 lowC6 closeC6 rmC6.atr_period).getLastD none
      = some (1 / 500) := by
    norm_num [calculate_atr, trueRanges, trRest, wilderAtr, highC6, lowC6, closeC6,
      rmC6, List.zip, List.zipWith, max_def, abs]
  refine ⟨hA, by norm_num, ?_⟩
  have h := ((calculate_levels_spec rmC6 SignalType.LONG (11 / 10) highC6 lowC6 closeC6
    (1 / 500)).2.2.2.1 hA (by norm_num)).1
  rw [h]
  norm_num [rmC6]

/-- C7: whenever the effective current close equals the computed current
EMA, `SignalGenerator.generate` returns a NONE signal regardless of the RSI
values: equality falls through both the `price > EMA` and the `price < EMA`
branch, with no tie-breaking toward SHORT. -/
theorem price_eq_ema_yields_none (g : SignalGenerator) (close_prices : List ℚ)
    (current_price : Option ℚ)
    (h : (calculate_ema close_prices g.ema_period).getLastD none
      = some (currentClose close_prices current_price)) :
    (generate g close_prices current_price).signal_type = SignalType.NONE := by
  by_cases hlen : close_prices.length < max g.ema_period g.rsi_period + 2
  · rw [generate, if_pos hlen]
  · simp only [generate]
    rw [if_neg hlen, h]
    rcases h2 : (calculate_rsi close_prices g.rsi_period).getLastD none with _ | cr <;>
      rcases h3 : (calculate_rsi close_prices g.rsi_period).dropLast.getLastD none
        with _ | pr <;>
      simp [lt_irrefl]

/-- C7 witness: over the constant series `[1, 1, 1]` the period-1 EMA equals
the last close, and the generated signal is NONE. -/
theorem price_eq_ema_yields_none_witness :
    (calculate_ema [1, 1, 1] gC7.ema_period).getLastD none
        = some (currentClose [1, 1, 1] none) ∧
    (generate gC7 [1, 1, 1] none).signal_type = SignalType.NONE := by
  have h : (calculate_ema [1, 1, 1] gC7.ema_period).getLastD none
      = some (currentClose [1, 1, 1] none) := by
    norm_num [calculate_ema, emaFrom, currentClose, gC7]
  exact ⟨h, price_eq_ema_yields_none gC7 [1, 1, 1] none h⟩

/-- C8: for every period `p ≥ 1` and input series shorter than `p`, each of
`calculate_ema`, `calculate_rsi` and `calculate_atr` returns an array of the
input length whose values are all undefined; being total Lean functions,
none of them can fail. -/
theorem indicators_short_series_all_undefined (p : ℕ) (data high low close : List ℚ)
    (_hp : 1 ≤ p) (hd : data.length < p) (hc : close.length < p) :
    calculate_ema data p = List.replicate data.length none ∧
    calculate_rsi data p = List.replicate data.length none ∧
    calculate_atr high low close p = List.replicate close.length none := by
  refine ⟨?_, ?_, ?_⟩
  · rw [calculate_ema, if_pos hd]
  · rw [calculate_rsi, if_pos (Nat.lt_succ_of_lt hd)]
  · rw [calculate_atr, if_pos (Nat.lt_succ_of_lt hc)]

/-- C8 witness: period 3 over two-element series. -/
theorem indicators_short_series_all_undefined_witness :
    1 ≤ 3 ∧ ([1, 2] : List ℚ).length < 3 ∧
    (calculate_ema [1, 2] 3 = List.replicate ([1, 2] : List ℚ).length none ∧
     calculate_rsi [1, 2] 3 = List.replicate ([1, 2] : List ℚ).length none ∧
     calculate_atr [1, 2] [1, 2] [1, 2] 3
        = List.replicate ([1, 2] : List ℚ).length none) :=
  ⟨by decide, by decide,
   indicators_short_series_all_undefined 3 [1, 2] [1, 2] [1, 2] [1, 2]
     (by decide) (by decide) (by decide)⟩

/-- With no magic number configured, every position with an available tick
produces exactly one close request, in order, whatever its magic. -/
theorem kill_requests_all (k : KillSwitch) (tick : ℕ → Option (ℚ × ℚ))
    (hm : k.magic_number = 0) :
    ∀ ps : List KSPosition, (∀ pos ∈ ps, tick pos.symbol ≠ none) →
      (ps.filterMap (killRequest k tick)).map CloseRequest.position
        = ps.map KSPosition.ticket := by
  intro ps
  induction ps with
  | nil => intro _; simp
  | cons pos rest ih =>
    intro h
    rcases htick : tick pos.symbol with _ | ⟨bid, ask⟩
    · exact absurd htick (h pos (List.mem_cons_self pos rest))
    · have hrest := ih fun q hq => h q (List.mem_cons_of_mem pos hq)
      simp [List.filterMap_cons, killRequest, hm, htick, hrest]

/-- With a positive magic number configured, every issued close request
carries that magic number: the filter is in force. -/
theorem kill_requests_magic (k : KillSwitch) (tick : ℕ → Option (ℚ × ℚ))
    (hm : 0 < k.magic_number) (ps : List KSPosition) :
    ∀ r ∈ ps.filterMap (killRequest k tick), r.magic = k.magic_number := by
  intro r hr
  rw [List.mem_filterMap] at hr
  obtain ⟨pos, hpos, hkr⟩ := hr
  rw [killRequest] at hkr
  rcases htick : tick pos.symbol with _ | ⟨bid, ask⟩ <;> rw [htick] at hkr
  · split_ifs at hkr
  · split_ifs at hkr with hcond hbuy
    all_goals (have h3 : pos.magic = r.magic := Option.some.inj (congrArg (Option.map CloseRequest.magic) hkr); rw [← h3]; by_contra hne; exact hcond ⟨hm, hne⟩)

/-- C9: `execute_kill` in the triggered state with `magic_number = 0` (the
constructor default) issues a closing order for every open position the
broker returns (given a readable tick for each), including positions whose
magic number is not the strategy's; a positive `magic_number` is the only
case in which the magic filter applies, and then every issued request
carries that magic number. -/
theorem execute_kill_magic_filter (k : KillSwitch) (ps : List KSPosition)
    (tick : ℕ → Option (ℚ × ℚ)) (send_ok : CloseRequest → Bool) :
    (k.is_triggered = true → k.magic_number = 0 →
      (∀ pos ∈ ps, tick pos.symbol ≠ none) →
      ((execute_kill k (some ps) tick send_ok).2).map CloseRequest.position
        = ps.map KSPosition.ticket) ∧
    (0 < k.magic_number →
      ∀ r ∈ (execute_kill k (some ps) tick send_ok).2, r.magic = k.magic_number) := by
  constructor
  · intro ht hm hticks
    have he : (execute_kill k (some ps) tick send_ok).2
        = ps.filterMap (killRequest k tick) := by
      rw [execute_kill, if_neg (by simp [ht])]
    rw [he]
    exact kill_requests_all k tick hm ps hticks
  · intro hm r hr
    by_cases ht : k.is_triggered = true
    · have he : (execute_kill k (some ps) tick send_ok).2
          = ps.filterMap (killRequest k tick) := by
        rw [execute_kill, if_neg (by simp [ht])]
      rw [he] at hr
      exact kill_requests_magic k tick hm ps r hr
    · have ht' : k.is_triggered = false := by
        cases hb : k.is_triggered
        · rfl
        · exact absurd hb ht
      have he : (execute_kill k (some ps) tick send_ok).2 = [] := by
        rw [execute_kill, if_pos ht']
      rw [he] at hr
      exact absurd hr (List.not_mem_nil r)

/-- C9 witness: with magic 0, both fixture positions — magics 42 and 99 —
get close requests. -/
theorem execute_kill_magic_filter_witness :
    kC9.is_triggered = true ∧ kC9.magic_number = 0 ∧
    (∀ pos ∈ psC9, tickC9 pos.symbol ≠ none) ∧
    ((execute_kill kC9 (some psC9) tickC9 okC9).2).map CloseRequest.position
      = psC9.map KSPosition.ticket :=
  ⟨rfl, rfl, by decide,
   (execute_kill_magic_filter kC9 psC9 tickC9 okC9).1 rfl rfl (by decide)⟩

/-- With sufficient history, `generate` always reports the effective current
close as the entry price, in every branch. -/
theorem generate_entry (g : SignalGenerator) (close_prices : List ℚ)
    (cp : Option ℚ)
    (h : ¬ close_prices.length < max g.ema_period g.rsi_period + 2) :
    (generate g close_prices cp).entry_price = currentClose close_prices cp := by
  simp only [generate]
  rw [if_neg h]
  split <;> rfl

/-- C10: `generate` tests `current_price` for Python truthiness, not
presence: with sufficient history, passing `0.0` behaves exactly like
passing nothing — the signal's entry price is the last close — and only a
non-zero current price overrides the last close. -/
theorem generate_current_price_truthiness (g : SignalGenerator)
    (close_prices : List ℚ) (c : ℚ)
    (hlen : max g.ema_period g.rsi_period + 2 ≤ close_prices.length) :
    (generate g close_prices (some 0)).entry_price = close_prices.getLastD 0 ∧
    (generate g close_prices none).entry_price = close_prices.getLastD 0 ∧
    (c ≠ 0 → (generate g close_prices (some c)).entry_price = c) := by
  have h' : ¬ close_prices.length < max g.ema_period g.rsi_period + 2 :=
    not_lt.mpr hlen
  refine ⟨?_, ?_, fun hc => ?_⟩
  · rw [generate_entry g close_prices (some 0) h']
    simp [currentClose]
  · rw [generate_entry g close_prices none h']
    simp [currentClose]
  · rw [generate_entry g close_prices (some c) h']
    simp [currentClose, hc]

/-- C10 witness: over `[1, 1, 2]`, `current_price = 0.0` and no
`current_price` both give entry price 2 (the last close), while 5 gives 5. -/
theorem generate_current_price_truthiness_witness :
    max gC10.ema_period gC10.rsi_period + 2 ≤ ([1, 1, 2] : List ℚ).length ∧
    ((generate gC10 [1, 1, 2] (some 0)).entry_price = ([1, 1, 2] : List ℚ).getLastD 0 ∧
     (generate gC10 [1, 1, 2] none).entry_price = ([1, 1, 2] : List ℚ).getLastD 0 ∧
     ((5 : ℚ) ≠ 0 → (generate gC10 [1, 1, 2] (some 5)).entry_price = 5)) :=
  ⟨by decide, generate_current_price_truthiness gC10 [1, 1, 2] 5 (by decide)⟩

end Trading
